import Mathlib

/-!
Verification of the box-model text layout engine in
`src/ezdxf/tools/text_layout.py` (module `ezdxf.tools.text_layout`).

The Python source is shallowly embedded: floats are modelled by `ℚ`
(every numeric fact checked here is exact), Python `None` by `Option`,
and a raised `ValueError` / `AttributeError` by `Except String`.
Definitions follow the source code; the one exception is
`FlowTextS.distribute_content`, whose body in the source is a bare
`pass` stub, and which is therefore modelled from the specification
(see its doc comment).
-/

namespace TextLayout

/-- The leaf cell classes of the source: glue cells
`Space`, `NonBreakingSpace`, `SoftHyphen`, `Tab` (carrying `_width` and
`_min_width`) and content cells `Text`, `Fraction` (carrying `_width`,
`_height` and an attached renderer, identified here by a number). -/
inductive Cell where
  | space (width minWidth : ℚ)
  | nbsp (width minWidth : ℚ)
  | softHyphen (width minWidth : ℚ)
  | tab (width minWidth : ℚ)
  | text (width height : ℚ) (renderer : ℕ)
  | fraction (width height : ℚ) (renderer : ℕ)
deriving DecidableEq, Repr

/-- Membership in the source's `_content = {Text, Fraction}` set. -/
def isContent : Cell → Bool
  | .text .. => true
  | .fraction .. => true
  | _ => false

/-- `type(cell) is SoftHyphen`. -/
def isSoftHyphen : Cell → Bool
  | .softHyphen .. => true
  | _ => false

/-- Membership in the source's
`_glue = {Space, NonBreakingSpace, SoftHyphen, Tab}` set. -/
def isGlue : Cell → Bool
  | .space .. => true
  | .nbsp .. => true
  | .softHyphen .. => true
  | .tab .. => true
  | _ => false

/-- `peek() in _content` in `normalize_cells`: looks at the next cell of
the input list; `peek()` returns `None` past the end, and
`None in _content` is false. -/
def peekContent : List Cell → Bool
  | [] => false
  | c :: _ => isContent c

/-- Does the optional previous cell type satisfy `prev in _content`?
(`None in _content` is false.) -/
def prevContent : Option Cell → Bool
  | none => false
  | some c => isContent c

/-- Does the optional previous cell type satisfy `prev is SoftHyphen`? -/
def prevSoftHyphen : Option Cell → Bool
  | none => false
  | some c => isSoftHyphen c

/-- The main loop of `normalize_cells`: iterates over the input with
`prev` holding the type of the last retained cell (`None` initially;
`continue` branches leave it unchanged), raising
`ValueError('no glue between content cells')` on two adjacent content
cells, merging consecutive soft hyphens and dropping soft hyphens that
do not stand between two content cells. -/
def normLoop : Option Cell → List Cell → Except String (List Cell)
  | _, [] => .ok []
  | prev, c :: rest =>
    if isContent c then
      if prevContent prev then .error "no glue between content cells"
      else
        match normLoop (some c) rest with
        | .error e => .error e
        | .ok out => .ok (c :: out)
    else
      if isSoftHyphen c then
        if prevSoftHyphen prev then
          -- merge multiple soft hyphens
          normLoop prev rest
        else
          if !prevContent prev || !peekContent rest then
            -- remove soft hyphen without adjacent content
            normLoop prev rest
          else
            match normLoop (some c) rest with
            | .error e => .error e
            | .ok out => .ok (c :: out)
      else
        match normLoop (some c) rest with
        | .error e => .error e
        | .ok out => .ok (c :: out)

/-- The trailing-glue removal at the end of `normalize_cells`:
`while content and (type(content[-1]) in _glue): content.pop()`. -/
def dropTrailingGlue (l : List Cell) : List Cell :=
  (l.reverse.dropWhile isGlue).reverse

/-- `normalize_cells(cells)`: the scan loop followed by trailing-glue
removal. -/
def normalize_cells (cells : List Cell) : Except String (List Cell) :=
  match normLoop none cells with
  | .error e => .error e
  | .ok content => .ok (dropTrailingGlue content)

/-- Does the list contain two adjacent content cells? -/
def hasAdjacentContent : List Cell → Bool
  | c1 :: c2 :: rest => (isContent c1 && isContent c2) || hasAdjacentContent (c2 :: rest)
  | _ => false

/-- `resolve_margins`: CSS-shorthand expansion to
`(top, right, bottom, left)`.  `None` yields all zeros; for 1–4 values
the `if`/`elif` chain applies; for any other length (`[]` included or
five and more values) the Python function falls through every branch
and implicitly returns `None`, modelled as `none`. -/
def resolve_margins : Option (List ℚ) → Option (ℚ × ℚ × ℚ × ℚ)
  | none => some (0, 0, 0, 0)
  | some [a, b, c, d] => some (a, b, c, d)
  | some [a, b, c] => some (a, b, c, b)
  | some [a, b] => some (a, b, a, b)
  | some [a] => some (a, a, a, a)
  | some _ => none

/-- `insert_location(align, width, height)`: top-left offset for the
nine anchor positions; any other `align` value keeps the initial
`left = 0, top = 0`. -/
def insert_location (align : ℤ) (width height : ℚ) : ℚ × ℚ :=
  let center := width / 2
  let middle := height / 2
  if align = 1 then (0, 0)
  else if align = 2 then (-center, 0)
  else if align = 3 then (-width, 0)
  else if align = 4 then (0, middle)
  else if align = 5 then (-center, middle)
  else if align = 6 then (-width, middle)
  else if align = 7 then (0, height)
  else if align = 8 then (-center, height)
  else if align = 9 then (-width, height)
  else (0, 0)

/-- Resolved margins in CSS order, as stored in `Container._margins`. -/
structure Margins where
  top : ℚ
  right : ℚ
  bottom : ℚ
  left : ℚ
deriving DecidableEq, Repr

/-- The state installed by `Container.__init__` and shared by every
container class (`Line`, `FlowText`, `Column`, `Layout`): the final
anchor (`None` until `place` runs), `_content_width`,
`_content_height` and the resolved margins.  `_content_width` is
modelled as `ℚ` because every concrete container constructor in the
source requires a float `width` argument, so the `None` branch of the
`content_width` property is dead code; `_content_height` genuinely is
`None` for flexible-height containers.  `hasRenderer` records whether
an optional background renderer is attached. -/
structure Core where
  finalX : Option ℚ
  finalY : Option ℚ
  contentWidth : ℚ
  contentHeightO : Option ℚ
  margins : Margins
  hasRenderer : Bool
deriving DecidableEq, Repr

/-- Property `Container.content_width` (the `None` branch is dead, see
`Core`). -/
def Core.content_width (c : Core) : ℚ := c.contentWidth

/-- Property `Container.content_height`: `0` if `_content_height` is
`None`, the stored value otherwise. -/
def Core.content_height (c : Core) : ℚ := c.contentHeightO.getD 0

/-- Property `Container.top_margin`. -/
def Core.top_margin (c : Core) : ℚ := c.margins.top

/-- Property `Container.right_margin`. -/
def Core.right_margin (c : Core) : ℚ := c.margins.right

/-- Property `Container.bottom_margin`. -/
def Core.bottom_margin (c : Core) : ℚ := c.margins.bottom

/-- Property `Container.left_margin`. -/
def Core.left_margin (c : Core) : ℚ := c.margins.left

/-- Property `Container.total_width =
content_width + right_margin + left_margin`. -/
def Core.total_width (c : Core) : ℚ :=
  c.content_width + c.right_margin + c.left_margin

/-- Property `Container.total_height =
content_height + top_margin + bottom_margin`. -/
def Core.total_height (c : Core) : ℚ :=
  c.content_height + c.top_margin + c.bottom_margin

/-- Property `Container.has_flex_height`: `_content_height is None`. -/
def Core.has_flex_height (c : Core) : Bool := c.contentHeightO.isNone

/-- `Container.is_placed`: both final coordinates are not `None`. -/
def Core.is_placed (c : Core) : Bool := c.finalX.isSome && c.finalY.isSome

/-- The effect of `Container.place(x, y)` on the container's own state
(the subsequent `place_content()` call touches only the children). -/
def coreSetFinal (c : Core) (x y : ℚ) : Core :=
  { c with finalX := some x, finalY := some y }

/-- `Container.final_location`: raises
`ValueError('Container is not placed.')` while unplaced, else returns
the stored anchor. -/
def Core.final_location (c : Core) : Except String (ℚ × ℚ) :=
  match c.finalX, c.finalY with
  | some x, some y => .ok (x, y)
  | _, _ => .error "Container is not placed."

/-- The entry guard of `Container.render`: raises
`ValueError('Layout has to be placed before rendering')` while
unplaced.  After the guard the source optionally renders the
background, re-runs `place_content()` and renders the children through
externally supplied renderer objects; those external draw calls are
outside the model, so a successful render is represented by the
(unchanged) container state. -/
def Core.render (c : Core) : Except String Core :=
  if c.is_placed then .ok c else .error "Layout has to be placed before rendering"

/-- The state of a `ContentCell` (`Text` / `Fraction`): final location
(initialised to `(None, None)` by `__init__`), fixed width and height,
and the attached renderer. -/
structure ContentCellS where
  finalX : Option ℚ
  finalY : Option ℚ
  width : ℚ
  height : ℚ
  renderer : ℕ
deriving DecidableEq, Repr

/-- `ContentCell.__init__(width, height, renderer)`: `_final_x` and
`_final_y` start as `None`. -/
def mkContentCell (w h : ℚ) (r : ℕ) : ContentCellS :=
  ⟨none, none, w, h, r⟩

/-- `ContentCell.final_location`: returns `(self._final_x,
self._final_y)` unconditionally — no placement check. -/
def ContentCellS.final_location (c : ContentCellS) : Option ℚ × Option ℚ :=
  (c.finalX, c.finalY)

/-- State of class `Line` (a container of cells; its `_content_height`
is always `None`: `super().__init__(width, None, margins, render)`). -/
structure LineS where
  core : Core
  align : ℤ
  cells : List Cell
deriving DecidableEq, Repr

def LineS.total_width (l : LineS) : ℚ := l.core.total_width

def LineS.total_height (l : LineS) : ℚ := l.core.total_height

def LineS.content_width (l : LineS) : ℚ := l.core.content_width

def LineS.content_height (l : LineS) : ℚ := l.core.content_height

/-- State of class `FlowText` (alignment, indentation, line spacing,
tab stops, the raw `_cells` and the distributed `_lines`); its
`_content_height` is always `None`. -/
structure FlowTextS where
  core : Core
  align : ℤ
  indentFirst : ℚ
  indentLeft : ℚ
  indentRight : ℚ
  lineSpacing : ℚ
  tabStops : List ℚ
  cells : List Cell
  lines : List LineS
deriving DecidableEq, Repr

def FlowTextS.total_width (p : FlowTextS) : ℚ := p.core.total_width

def FlowTextS.total_height (p : FlowTextS) : ℚ := p.core.total_height

def FlowTextS.content_width (p : FlowTextS) : ℚ := p.core.content_width

def FlowTextS.content_height (p : FlowTextS) : ℚ := p.core.content_height

/-- State of class `Column`: gutter and the list of paragraphs
(`FlowText` is the only concrete paragraph class in the source). -/
structure ColumnS where
  core : Core
  gutter : ℚ
  paragraphs : List FlowTextS
deriving DecidableEq, Repr

/-- Property `Column.max_content_height`: the raw `_content_height`. -/
def ColumnS.max_content_height (c : ColumnS) : Option ℚ := c.core.contentHeightO

/-- `Column.used_content_height`: sum of the paragraphs' total
heights. -/
def ColumnS.used_content_height (c : ColumnS) : ℚ :=
  (c.paragraphs.map FlowTextS.total_height).sum

/-- Property override `Column.content_height`: the used content height
for flexible columns, the fixed maximum otherwise. -/
def ColumnS.content_height (c : ColumnS) : ℚ :=
  match c.max_content_height with
  | none => c.used_content_height
  | some m => m

def ColumnS.content_width (c : ColumnS) : ℚ := c.core.content_width

def ColumnS.total_width (c : ColumnS) : ℚ := c.core.total_width

/-- `Column.total_height`: the inherited formula dispatches to the
overridden `content_height`. -/
def ColumnS.total_height (c : ColumnS) : ℚ :=
  c.content_height + c.core.top_margin + c.core.bottom_margin

/-- Property `Column.has_free_space`. -/
def ColumnS.has_free_space (c : ColumnS) : Bool :=
  match c.max_content_height with
  | none => true
  | some m => decide (c.used_content_height < m)

/-- `Column.clone_empty`: a fresh column built from the *properties*
`content_width` and `content_height` (so a flexible column is cloned
with a fixed height equal to its currently used height), same gutter,
margins and renderer, no paragraphs, unplaced. -/
def ColumnS.clone_empty (c : ColumnS) : ColumnS :=
  { core :=
      { finalX := none
        finalY := none
        contentWidth := c.content_width
        contentHeightO := some c.content_height
        margins := c.core.margins
        hasRenderer := c.core.hasRenderer }
    gutter := c.gutter
    paragraphs := [] }

/-- State of class `Layout`: reference column width, current-column
cursor and the columns. -/
structure LayoutS where
  core : Core
  refColumnWidth : ℚ
  currentColumn : ℕ
  columns : List ColumnS
deriving DecidableEq, Repr

/-- `Layout._calculate_content_width`: widths plus gutters of all
columns but the last, plus the last column's width. -/
def layoutCalcWidth (l : LayoutS) : ℚ :=
  (l.columns.dropLast.map (fun c => c.total_width + c.gutter)).sum +
    (match l.columns.getLast? with
     | some c => c.total_width
     | none => 0)

/-- Property override `Layout.content_width`: the stored width when no
columns exist, otherwise computed from the columns. -/
def LayoutS.content_width (l : LayoutS) : ℚ :=
  match l.columns with
  | [] => l.core.contentWidth
  | _ => layoutCalcWidth l

/-- Property override `Layout.content_height`: `max` of the columns'
total heights when columns exist, else the stored height (`None`
becoming `0`). -/
def LayoutS.content_height (l : LayoutS) : ℚ :=
  match l.columns with
  | [] => l.core.contentHeightO.getD 0
  | c :: rest => (rest.map ColumnS.total_height).foldl max c.total_height

/-- `Layout.total_width`: inherited formula over the overridden
`content_width`. -/
def LayoutS.total_width (l : LayoutS) : ℚ :=
  l.content_width + l.core.right_margin + l.core.left_margin

/-- `Layout.total_height`: inherited formula over the overridden
`content_height`. -/
def LayoutS.total_height (l : LayoutS) : ℚ :=
  l.content_height + l.core.top_margin + l.core.bottom_margin

/-- Placement of the lines of a paragraph
(`FlowText.place_content`): each line is placed at the running cursor
`(x, y)` and the cursor advances downward by the line's total height.
(`Line` itself declares no `place_content`, so placing a line only
records its anchor.) -/
def placeLines (x y : ℚ) : List LineS → List LineS
  | [] => []
  | l :: rest =>
    let l' := { l with core := coreSetFinal l.core x y }
    l' :: placeLines x (y - l'.total_height) rest

/-- `FlowText.place(x, y)`: record the anchor, then `place_content`
places the lines at the anchor shifted inside the margins. -/
def FlowTextS.place (p : FlowTextS) (x y : ℚ) : FlowTextS :=
  { p with
      core := coreSetFinal p.core x y
      lines := placeLines (x + p.core.margins.left) (y - p.core.margins.top) p.lines }

/-- Placement loop of `Column.place_content`: paragraphs are stacked
downward, the cursor advancing by each paragraph's total height. -/
def placeParagraphs (x y : ℚ) : List FlowTextS → List FlowTextS
  | [] => []
  | p :: rest =>
    let p' := p.place x y
    p' :: placeParagraphs x (y - p'.total_height) rest

/-- `Column.place(x, y)`: record the anchor, then place the paragraphs
inside the margins. -/
def ColumnS.place (c : ColumnS) (x y : ℚ) : ColumnS :=
  { c with
      core := coreSetFinal c.core x y
      paragraphs :=
        placeParagraphs (x + c.core.margins.left) (y - c.core.margins.top) c.paragraphs }

/-- Placement loop of `Layout.place_content`: columns are placed left
to right, the cursor advancing by `column.total_width +
column.gutter`. -/
def placeColumns (x y : ℚ) : List ColumnS → List ColumnS
  | [] => []
  | c :: rest =>
    let c' := c.place x y
    c' :: placeColumns (x + c'.total_width + c'.gutter) y rest

/-- `Container.place(x, y)` as inherited by `Layout`: record the
anchor, then `Layout.place_content` places the columns inside the
margins. -/
def layoutPlaceAt (l : LayoutS) (x y : ℚ) : LayoutS :=
  { l with
      core := coreSetFinal l.core x y
      columns :=
        placeColumns (x + l.core.margins.left) (y - l.core.margins.top) l.columns }

/-- `Layout.place(x, y, align)`: compute the total size, resolve the
anchor offset with `insert_location` and place at the shifted
insertion point. -/
def LayoutS.place (l : LayoutS) (x y : ℚ) (align : ℤ) : LayoutS :=
  let width := l.total_width
  let height := l.total_height
  let off := insert_location align width height
  layoutPlaceAt l (x + off.1) (y + off.2)

/-- `Column.append_paragraphs(paragraphs)`.  The source body is

* flexible height: `self._paragraphs.extend(p.freeze() for p in
  paragraphs)` — but no class in the module defines a method `freeze`,
  so as soon as the generator yields its first paragraph, Python
  raises `AttributeError`; with an empty input the generator is empty
  and nothing happens;
* fixed height: the branch body is `pass`;

and in both non-raising cases the untouched `remainer = []` is
returned. -/
def ColumnS.append_paragraphs (c : ColumnS) (ps : List FlowTextS) :
    Except String (ColumnS × List FlowTextS) :=
  if c.core.has_flex_height then
    match ps with
    | [] => .ok (c, [])
    | _ :: _ => .error "AttributeError: object has no attribute freeze"
  else
    .ok (c, [])

/-- `Layout._new_column`: raises `ValueError('no column exist')` when
the layout has no columns, otherwise appends and returns
`self._columns[-1].clone_empty()`. -/
def LayoutS.new_column (l : LayoutS) : Except String (LayoutS × ColumnS) :=
  match l.columns.getLast? with
  | none => .error "no column exist"
  | some last =>
    let empty := last.clone_empty
    .ok ({ l with columns := l.columns ++ [empty] }, empty)

/-- Loop 1 of `Layout.append_paragraphs`
(`while self._current_column < len(columns)`): fill existing columns
starting at the current-column cursor; an empty remainder returns from
the whole method (flagged by the `Bool`, true = early return).  The
fuel argument only drives the recursion; `columns.length + 1` steps
always suffice because the cursor grows by one per iteration. -/
def layoutFillLoop : ℕ → List ColumnS → ℕ → List FlowTextS →
    Except String (List ColumnS × ℕ × List FlowTextS × Bool)
  | 0, cols, cur, rem => .ok (cols, cur, rem, false)
  | fuel + 1, cols, cur, rem =>
    if h : cur < cols.length then
      match (cols.get ⟨cur, h⟩).append_paragraphs rem with
      | .error e => .error e
      | .ok (col', rem') =>
        let cols' := cols.set cur col'
        if rem'.isEmpty then .ok (cols', cur, rem', true)
        else layoutFillLoop fuel cols' (cur + 1) rem'
    else .ok (cols, cur, rem, false)

/-- Loop 2 of `Layout.append_paragraphs` (`while remainer:`): create an
overflow column via `_new_column`, point the cursor at it, append into
it, and raise `ValueError('Internal error - not enough space!?')`
once the cursor passes 100.  The fuel argument only drives the
recursion; 102 steps suffice because each iteration grows the cursor,
so the 100-cap check fires first. -/
def layoutOverflowLoop : ℕ → LayoutS → List FlowTextS → Except String LayoutS
  | _, l, [] => .ok l
  | 0, _, _ => .error "model fuel exhausted"
  | fuel + 1, l, rem =>
    match l.new_column with
    | .error e => .error e
    | .ok (l1, col) =>
      let l2 := { l1 with currentColumn := l1.columns.length - 1 }
      match col.append_paragraphs rem with
      | .error e => .error e
      | .ok (col', rem') =>
        let l3 := { l2 with columns := l2.columns.set (l2.columns.length - 1) col' }
        if l3.currentColumn > 100 then
          .error "Internal error - not enough space!?"
        else layoutOverflowLoop fuel l3 rem'

/-- `Layout.append_paragraphs(paragraphs)`: fill the existing columns
from the cursor onward, then create overflow columns while a remainder
exists. -/
def LayoutS.append_paragraphs (l : LayoutS) (ps : List FlowTextS) :
    Except String LayoutS :=
  match layoutFillLoop (l.columns.length + 1) l.columns l.currentColumn ps with
  | .error e => .error e
  | .ok (cols, cur, rem, earlyReturn) =>
    let l1 := { l with columns := cols, currentColumn := cur }
    if earlyReturn then .ok l1
    else layoutOverflowLoop 102 l1 rem

/-- `Box.total_width` of a leaf cell: glue cells report their stored
width, content cells their fixed width. -/
def cellWidth : Cell → ℚ
  | .space w _ => w
  | .nbsp w _ => w
  | .softHyphen w _ => w
  | .tab w _ => w
  | .text w _ _ => w
  | .fraction w _ _ => w

/-- `Box.total_height` of a leaf cell: glue height is always `0`,
content cells report their fixed height. -/
def cellHeight : Cell → ℚ
  | .text _ h _ => h
  | .fraction _ h _ => h
  | _ => 0

/-- `can_break` per the source: `Glue.can_break` is true,
`NonBreakingSpace.can_break` is false; content cells are never break
points. -/
def canBreakCell : Cell → Bool
  | .space .. => true
  | .softHyphen .. => true
  | .tab .. => true
  | _ => false

def cellsWidth (cs : List Cell) : ℚ := (cs.map cellWidth).sum

/-- A produced line of distributed content: its cells, natural width
and height (the tallest cell). -/
structure RawLine where
  cells : List Cell
  width : ℚ
  height : ℚ
deriving DecidableEq, Repr

def lineOfCells (cs : List Cell) : RawLine :=
  ⟨cs, cellsWidth cs, (cs.map cellHeight).foldl max 0⟩

/-- Modelled from the spec: split the raw cell stream into atomic
units.  A unit is a maximal run of cells that may not be separated by
a line break (content cells and non-breaking spaces), preceded by the
run of breakable glue standing before it; "NonBreakingSpace cells and
their immediately adjacent Content cells must never be split across a
break".  The fuel argument (always called with the list length) only
drives the recursion. -/
def toUnits : ℕ → List Cell → List (List Cell × List Cell)
  | 0, _ => []
  | _, [] => []
  | fuel + 1, cs =>
    let glue := cs.takeWhile canBreakCell
    let rest := cs.dropWhile canBreakCell
    let body := rest.takeWhile (fun c => !canBreakCell c)
    let rest2 := rest.dropWhile (fun c => !canBreakCell c)
    (glue, body) :: toUnits fuel rest2

/-- Modelled from the spec: greedy line fill ("add cells until the
next Content cell (or atomic glue+content run) would exceed the usable
width; close the current line at the last breakable point before the
overflow, drop trailing Glue on the closed line").  `w` is the usable
width of the line being filled, `wRest` that of every later line;
`cur` accumulates the current line's cells.  Breakable glue at a line
edge is dropped. -/
def wrapGo (wRest : ℚ) : ℚ → List Cell → List (List Cell × List Cell) → List RawLine
  | _, cur, [] =>
    if cur.isEmpty then [] else [lineOfCells (dropTrailingGlue cur)]
  | w, cur, (glue, body) :: us =>
    if cur.isEmpty then wrapGo wRest w body us
    else if cellsWidth cur + cellsWidth glue + cellsWidth body ≤ w then
      wrapGo wRest w (cur ++ glue ++ body) us
    else
      lineOfCells (dropTrailingGlue cur) :: wrapGo wRest wRest body us

/-- Modelled from the spec: break a paragraph's raw cells into lines.
"Usable line width = `content_width − indent_left − indent_right` for
all lines; the first produced line additionally subtracts
`indent_first`." -/
def wrapLines (p : FlowTextS) : List RawLine :=
  let wRest := p.core.contentWidth - p.indentLeft - p.indentRight
  let wFirst := wRest - p.indentFirst
  wrapGo wRest wFirst [] (toUnits p.cells.length p.cells)

/-- Modelled from the spec: "Vertical advance between lines = line
height × `line_spacing`". -/
def lineAdvance (spacing : ℚ) (l : RawLine) : ℚ := l.height * spacing

/-- Modelled from the spec: consume wrapped lines against the
remaining height budget; a line is kept only while the accumulated
advance stays within the budget, and the first line that would exceed
it stops the distribution, returning the kept prefix and the untouched
rest. -/
def fitLines (spacing budget : ℚ) : ℚ → List RawLine → List RawLine × List RawLine
  | _, [] => ([], [])
  | acc, l :: ls =>
    if acc + lineAdvance spacing l ≤ budget then
      let r := fitLines spacing budget (acc + lineAdvance spacing l) ls
      (l :: r.1, r.2)
    else ([], l :: ls)

/-- Modelled from the spec: `FlowText.distribute_content(height)`,
whose body in the source is an unimplemented `pass` stub (only the
declaration and its docstring exist).  Per the docstring, `height` is
the "available total height (margins + content), `None` for
unrestricted paragraph height".  The raw cells are wrapped into lines;
with `height = None` every line is kept and nothing remains; with a
finite height the lines are consumed against the content budget
(height minus the top and bottom margins) and the raw cells of the
undistributed lines are returned as the remainder.  The first
component plays the role of the paragraph's `_lines` list. -/
def FlowTextS.distribute_content (p : FlowTextS) (height : Option ℚ) :
    List RawLine × List Cell :=
  let all := wrapLines p
  match height with
  | none => (all, [])
  | some h =>
    let budget := h - p.core.top_margin - p.core.bottom_margin
    let r := fitLines p.lineSpacing budget 0 all
    (r.1, (r.2.map RawLine.cells).flatten)

/-- Characterisation of the lists the `normalize_cells` scan loop maps
to themselves (given the type of the previously retained cell): no
content cell directly after a content cell, and every retained soft
hyphen follows a content cell (not another soft hyphen) and is
followed by a content cell. -/
def goodLoop : Option Cell → List Cell → Bool
  | _, [] => true
  | prev, c :: rest =>
    if isContent c then
      !prevContent prev && goodLoop (some c) rest
    else if isSoftHyphen c then
      !prevSoftHyphen prev && prevContent prev && peekContent rest &&
        goodLoop (some c) rest
    else goodLoop (some c) rest

/-- An unplaced container core used to exercise the placement guards. -/
def unplacedCoreEx : Core :=
  { finalX := none
    finalY := none
    contentWidth := 10
    contentHeightO := none
    margins := ⟨0, 0, 0, 0⟩
    hasRenderer := false }

/-- A flexible-height column (`height=None`), as built by
`Column(width=10)`. -/
def flexColumnEx : ColumnS :=
  { core := unplacedCoreEx, gutter := 0, paragraphs := [] }

/-- A paragraph as built by `FlowText(width=10)`. -/
def paragraphEx : FlowTextS :=
  { core := unplacedCoreEx
    align := 0
    indentFirst := 0
    indentLeft := 0
    indentRight := 0
    lineSpacing := 1
    tabStops := []
    cells := []
    lines := [] }

/-- A layout without columns, as built by `Layout(width=10)`. -/
def emptyLayoutEx : LayoutS :=
  { core := unplacedCoreEx, refColumnWidth := 10, currentColumn := 0, columns := [] }

/-- A layout holding one column. -/
def oneColumnLayoutEx : LayoutS :=
  { emptyLayoutEx with columns := [flexColumnEx] }

/-- A paragraph with raw content: two words of width 4 and height 2
separated by a space, in a paragraph of width 6 (so the words wrap
onto separate lines). -/
def flowTextEx : FlowTextS :=
  { paragraphEx with
      core := { unplacedCoreEx with contentWidth := 6 }
      cells := [.text 4 2 0, .space 1 1, .text 4 2 1] }

/-- C3: `resolve_margins` expands 1, 2, 3 or 4 values CSS-shorthand
style to `(top, right, bottom, left)` and maps absent input (`None`)
to `(0,0,0,0)` — but, contrary to the claim, `resolve_margins([])`
falls through every branch of the `if`/`elif` chain and returns
Python `None` (violating the declared `Tuple4f` return type), not
`(0,0,0,0)`. -/
theorem resolve_margins_css_expansion :
    resolve_margins (some []) = none ∧
    resolve_margins none = some (0, 0, 0, 0) ∧
    resolve_margins (some [1]) = some (1, 1, 1, 1) ∧
    resolve_margins (some [1, 2]) = some (1, 2, 1, 2) ∧
    resolve_margins (some [1, 2, 3]) = some (1, 2, 3, 2) ∧
    resolve_margins (some [1, 2, 3, 4]) = some (1, 2, 3, 4) :=
  ⟨rfl, rfl, rfl, rfl, rfl, rfl⟩

/-- C6: for every container state of each concrete container class
(`Line`, `FlowText` paragraph, `Column`, `Layout`),
`total_width = content_width + left_margin + right_margin` and
`total_height = content_height + top_margin + bottom_margin`. -/
theorem container_size_additivity :
    ∀ (li : LineS) (p : FlowTextS) (c : ColumnS) (la : LayoutS),
      (li.total_width = li.content_width + li.core.left_margin + li.core.right_margin ∧
        li.total_height = li.content_height + li.core.top_margin + li.core.bottom_margin) ∧
      (p.total_width = p.content_width + p.core.left_margin + p.core.right_margin ∧
        p.total_height = p.content_height + p.core.top_margin + p.core.bottom_margin) ∧
      (c.total_width = c.content_width + c.core.left_margin + c.core.right_margin ∧
        c.total_height = c.content_height + c.core.top_margin + c.core.bottom_margin) ∧
      (la.total_width = la.content_width + la.core.left_margin + la.core.right_margin ∧
        la.total_height = la.content_height + la.core.top_margin + la.core.bottom_margin) := by
  intro li p c la
  refine ⟨⟨?_, ?_⟩, ⟨?_, ?_⟩, ⟨?_, ?_⟩, ⟨?_, ?_⟩⟩ <;>
    simp only [LineS.total_width, LineS.total_height, LineS.content_width,
      LineS.content_height, FlowTextS.total_width, FlowTextS.total_height,
      FlowTextS.content_width, FlowTextS.content_height, ColumnS.total_width,
      ColumnS.total_height, ColumnS.content_width, LayoutS.total_width,
      LayoutS.total_height, Core.total_width, Core.total_height,
      Core.content_width, Core.content_height] <;> ring

/-- C7: `Layout.place(x, y, anchor)` resolves a top-left offset from
the anchor code via `insert_location` and records
`(x + offset_x, y + offset_y)` as its final location; for total width
10 and total height 20, anchor 1 gives offset `(0,0)`, anchor 5 gives
`(-5,10)` and anchor 9 gives `(-10,20)`. -/
theorem layout_place_anchor_offset :
    (∀ (l : LayoutS) (x y : ℚ) (a : ℤ),
      ((l.place x y a).core.final_location =
        .ok (x + (insert_location a l.total_width l.total_height).1,
          y + (insert_location a l.total_width l.total_height).2))) ∧
    insert_location 1 10 20 = (0, 0) ∧
    insert_location 5 10 20 = (-5, 10) ∧
    insert_location 9 10 20 = (-10, 20) := by
  refine ⟨fun l x y a => rfl, ?_, ?_, ?_⟩ <;> norm_num [insert_location]

/-- C8: for every container, `final_location()` and `render()` both
fail with the not-placed `ValueError` while the container is unplaced,
and after `place(x, y)` the final location is `(x, y)` without
failure. -/
theorem container_place_guard :
    ∀ (c : Core) (x y : ℚ),
      (c.is_placed = false →
        c.final_location = .error "Container is not placed." ∧
        c.render = .error "Layout has to be placed before rendering") ∧
      (coreSetFinal c x y).final_location = .ok (x, y) := by
  intro c x y
  refine ⟨fun h => ⟨?_, ?_⟩, rfl⟩
  · rcases c with ⟨fx, fy, w, ho, m, r⟩
    rcases fx with _ | x' <;> rcases fy with _ | y' <;>
      simp_all [Core.is_placed, Core.final_location]
  · simp [Core.render, h]

/-- Witness for C8 at a concrete unplaced core and `place(3, 7)`. -/
theorem container_place_guard_witness :
    unplacedCoreEx.is_placed = false ∧
    unplacedCoreEx.final_location = .error "Container is not placed." ∧
    unplacedCoreEx.render = .error "Layout has to be placed before rendering" ∧
    (coreSetFinal unplacedCoreEx 3 7).final_location = .ok (3, 7) := by
  have h := container_place_guard unplacedCoreEx 3 7
  exact ⟨rfl, (h.1 rfl).1, (h.1 rfl).2, h.2⟩

/-- C9: a freshly constructed `ContentCell` (`Text` / `Fraction`) has
not been placed, yet `final_location()` does not fail: it returns
`(None, None)`; a container in the same situation raises the
not-placed `ValueError` instead. -/
theorem contentcell_final_location_total :
    ∀ (w h : ℚ) (r : ℕ),
      (mkContentCell w h r).final_location = (none, none) ∧
      (∀ c : Core, c.is_placed = false →
        c.final_location = .error "Container is not placed.") := by
  intro w h r
  refine ⟨rfl, fun c hc => ?_⟩
  rcases c with ⟨fx, fy, cw, ho, m, re⟩
  rcases fx with _ | x' <;> rcases fy with _ | y' <;>
    simp_all [Core.is_placed, Core.final_location]

/-- Witness for C9 at a concrete cell and the concrete unplaced
container core. -/
theorem contentcell_final_location_total_witness :
    (mkContentCell 4 2 0).final_location = (none, none) ∧
    unplacedCoreEx.final_location = .error "Container is not placed." := by
  have h := contentcell_final_location_total 4 2 0
  exact ⟨h.1, h.2 unplacedCoreEx rfl⟩

/-- C1 (failing evaluation): on a flexible-height column,
`Column.append_paragraphs` evaluates `p.freeze()` for the first given
paragraph, but no class of the module defines `freeze`, so Python
raises `AttributeError` instead of distributing and appending the
paragraphs; only the empty paragraph list returns the empty remainder. -/
theorem column_append_paragraphs_freeze_error :
    flexColumnEx.append_paragraphs [paragraphEx] =
      .error "AttributeError: object has no attribute freeze" ∧
    flexColumnEx.append_paragraphs [] = .ok (flexColumnEx, []) ∧
    flexColumnEx.core.has_flex_height = true :=
  ⟨rfl, rfl, rfl⟩

/-- C10: `Layout.append_paragraphs` on a layout without columns and a
non-empty paragraph list fails with the `'no column exist'`
`ValueError` rather than creating an initial column, and
`Layout._new_column` only ever appends a clone of the existing last
column. -/
theorem layout_append_requires_column :
    ∀ (l : LayoutS) (ps : List FlowTextS),
      (l.columns = [] → ps ≠ [] →
        l.append_paragraphs ps = .error "no column exist") ∧
      (∀ l' col, l.new_column = .ok (l', col) →
        ∃ last, l.columns.getLast? = some last ∧
          col = last.clone_empty ∧ l'.columns = l.columns ++ [col]) := by
  intro l ps
  constructor
  · intro h hps
    match ps, hps with
    | p :: rest, _ =>
      simp [LayoutS.append_paragraphs, h, layoutFillLoop, layoutOverflowLoop,
        LayoutS.new_column]
  · intro l' col hok
    unfold LayoutS.new_column at hok
    match hlast : l.columns.getLast? with
    | none => rw [hlast] at hok; exact absurd hok (by simp)
    | some last =>
      rw [hlast] at hok
      simp only [Except.ok.injEq, Prod.mk.injEq] at hok
      obtain ⟨h1, h2⟩ := hok
      subst h1
      subst h2
      exact ⟨last, rfl, rfl, rfl⟩

/-- Witness for C10: the concrete empty layout rejects a paragraph,
and `_new_column` on the concrete one-column layout clones its last
column. -/
theorem layout_append_requires_column_witness :
    emptyLayoutEx.append_paragraphs [paragraphEx] = .error "no column exist" ∧
    ∃ last, oneColumnLayoutEx.columns.getLast? = some last ∧
      flexColumnEx.clone_empty = last.clone_empty ∧
      ({ oneColumnLayoutEx with
          columns := oneColumnLayoutEx.columns ++ [flexColumnEx.clone_empty] } : LayoutS).columns =
        oneColumnLayoutEx.columns ++ [flexColumnEx.clone_empty] := by
  constructor
  · exact (layout_append_requires_column emptyLayoutEx [paragraphEx]).1 rfl
      (List.cons_ne_nil _ _)
  · exact (layout_append_requires_column oneColumnLayoutEx []).2 _ _ rfl

theorem isGlue_eq_not_isContent (c : Cell) : isGlue c = !isContent c := by
  cases c <;> rfl

theorem isSoftHyphen_not_content {c : Cell} (h : isSoftHyphen c = true) :
    isContent c = false := by
  cases c <;> simp_all [isSoftHyphen, isContent]

theorem hasAdjacentContent_cons (c : Cell) (rest : List Cell) :
    hasAdjacentContent (c :: rest) =
      ((isContent c && peekContent rest) || hasAdjacentContent rest) := by
  cases rest <;> simp [hasAdjacentContent, peekContent]

theorem normLoop_error_of_adjacent :
    ∀ (cs : List Cell) (prev : Option Cell),
      (hasAdjacentContent cs = true ∨
        (prevContent prev = true ∧ peekContent cs = true)) →
      normLoop prev cs = .error "no glue between content cells" := by
  intro cs
  induction cs with
  | nil =>
    intro prev h
    simp [hasAdjacentContent, peekContent] at h
  | cons c rest ih =>
    intro prev h
    by_cases hc : isContent c = true
    · by_cases hp : prevContent prev = true
      · simp [normLoop, hc, hp]
      · have hrest : hasAdjacentContent rest = true ∨
            (prevContent (some c) = true ∧ peekContent rest = true) := by
          rcases h with h | ⟨h1, _⟩
          · rw [hasAdjacentContent_cons] at h
            rcases Bool.or_eq_true_iff.mp h with h' | h'
            · exact Or.inr ⟨hc, (Bool.and_eq_true_iff.mp h').2⟩
            · exact Or.inl h'
          · exact absurd h1 (by simp_all)
        simp [normLoop, hc, hp, ih (some c) hrest]
    · have hrest : hasAdjacentContent rest = true := by
        rcases h with h | ⟨_, h2⟩
        · rw [hasAdjacentContent_cons] at h
          rcases Bool.or_eq_true_iff.mp h with h' | h'
          · exact absurd (Bool.and_eq_true_iff.mp h').1 (by simp_all)
          · exact h'
        · simp [peekContent] at h2
          exact absurd h2 (by simp_all)
      by_cases hsh : isSoftHyphen c = true
      · by_cases hpsh : prevSoftHyphen prev = true
        · simp [normLoop, hc, hsh, hpsh, ih prev (Or.inl hrest)]
        · by_cases hcond : (!prevContent prev || !peekContent rest) = true
          · simp [normLoop, hc, hsh, hpsh, hcond, ih prev (Or.inl hrest)]
          · simp [normLoop, hc, hsh, hpsh, hcond, ih (some c) (Or.inl hrest)]
      · simp [normLoop, hc, hsh, ih (some c) (Or.inl hrest)]

theorem normLoop_ok_good :
    ∀ (cs : List Cell) (prev : Option Cell) (out : List Cell),
      normLoop prev cs = .ok out → goodLoop prev out = true := by
  intro cs
  induction cs with
  | nil =>
    intro prev out h
    simp only [normLoop] at h
    cases h
    rfl
  | cons c rest ih =>
    intro prev out h
    by_cases hc : isContent c = true
    · by_cases hp : prevContent prev = true
      · simp [normLoop, hc, hp] at h
      · rw [show normLoop prev (c :: rest) =
            (match normLoop (some c) rest with
             | .error e => .error e
             | .ok o => .ok (c :: o)) by simp [normLoop, hc, hp]] at h
        cases hrec : normLoop (some c) rest with
        | error e => rw [hrec] at h; cases h
        | ok o =>
          rw [hrec] at h
          cases h
          have := ih (some c) o hrec
          simp [goodLoop, hc, hp, this]
    · by_cases hsh : isSoftHyphen c = true
      · by_cases hpsh : prevSoftHyphen prev = true
        · rw [show normLoop prev (c :: rest) = normLoop prev rest by
            simp [normLoop, hc, hsh, hpsh]] at h
          exact ih prev out h
        · by_cases hcond : (!prevContent prev || !peekContent rest) = true
          · rw [show normLoop prev (c :: rest) = normLoop prev rest by
              simp [normLoop, hc, hsh, hpsh, hcond]] at h
            exact ih prev out h
          · have hcond' : (!prevContent prev || !peekContent rest) = false := by
              simpa using hcond
            have hpc : prevContent prev = true := by
              rcases Bool.or_eq_false_iff.mp hcond' with ⟨h1, _⟩
              simpa using h1
            have hpk : peekContent rest = true := by
              rcases Bool.or_eq_false_iff.mp hcond' with ⟨_, h2⟩
              simpa using h2
            rw [show normLoop prev (c :: rest) =
                (match normLoop (some c) rest with
                 | .error e => .error e
                 | .ok o => .ok (c :: o)) by
              simp [normLoop, hc, hsh, hpsh, hcond]] at h
            cases hrec : normLoop (some c) rest with
            | error e => rw [hrec] at h; cases h
            | ok o =>
              rw [hrec] at h
              cases h
              -- the retained soft hyphen's successor: the next input cell is
              -- a content cell and is retained as the head of `o`
              match rest, hpk with
              | r :: rest', hpk =>
                have hr : isContent r = true := by simpa [peekContent] using hpk
                have hpcr : prevContent (some c) = false := by
                  simp [prevContent, isSoftHyphen_not_content hsh]
                rw [show normLoop (some c) (r :: rest') =
                    (match normLoop (some r) rest' with
                     | .error e => .error e
                     | .ok o => .ok (r :: o)) by simp [normLoop, hr, hpcr]] at hrec
                cases hrec2 : normLoop (some r) rest' with
                | error e => rw [hrec2] at hrec; cases hrec
                | ok o2 =>
                  rw [hrec2] at hrec
                  cases hrec
                  have hgood := ih (some c) (r :: o2) (by
                    rw [show normLoop (some c) (r :: rest') =
                        (match normLoop (some r) rest' with
                         | .error e => .error e
                         | .ok o => .ok (r :: o)) by simp [normLoop, hr, hpcr]]
                    rw [hrec2])
                  simp [goodLoop, hr, hpcr] at hgood
                  simp [goodLoop, hc, hsh, hpsh, hpc, peekContent, hr, hpcr, hgood]
      · rw [show normLoop prev (c :: rest) =
            (match normLoop (some c) rest with
             | .error e => .error e
             | .ok o => .ok (c :: o)) by simp [normLoop, hc, hsh]] at h
        cases hrec : normLoop (some c) rest with
        | error e => rw [hrec] at h; cases h
        | ok o =>
          rw [hrec] at h
          cases h
          have := ih (some c) o hrec
          simp [goodLoop, hc, hsh, this]

theorem goodLoop_normLoop_id :
    ∀ (cs : List Cell) (prev : Option Cell),
      goodLoop prev cs = true → normLoop prev cs = .ok cs := by
  intro cs
  induction cs with
  | nil => intro prev _; rfl
  | cons c rest ih =>
    intro prev h
    by_cases hc : isContent c = true
    · have h' := h
      simp only [goodLoop, hc, if_true] at h'
      obtain ⟨hp, hg⟩ := Bool.and_eq_true_iff.mp h'
      have hpf : prevContent prev = false := by simp_all
      simp [normLoop, hc, hpf, ih (some c) hg]
    · by_cases hsh : isSoftHyphen c = true
      · have h' := h
        simp only [goodLoop, hc, hsh, if_false, if_true] at h'
        have hpsh : prevSoftHyphen prev = false := by
          rcases Bool.and_eq_true_iff.mp h' with ⟨h1, _⟩
          rcases Bool.and_eq_true_iff.mp h1 with ⟨h2, _⟩
          rcases Bool.and_eq_true_iff.mp h2 with ⟨h3, _⟩
          simp_all
        have hpc : prevContent prev = true := by
          rcases Bool.and_eq_true_iff.mp h' with ⟨h1, _⟩
          rcases Bool.and_eq_true_iff.mp h1 with ⟨h2, _⟩
          rcases Bool.and_eq_true_iff.mp h2 with ⟨_, h4⟩
          exact h4
        have hpk : peekContent rest = true := by
          rcases Bool.and_eq_true_iff.mp h' with ⟨h1, _⟩
          rcases Bool.and_eq_true_iff.mp h1 with ⟨_, h3⟩
          exact h3
        have hg : goodLoop (some c) rest = true := by
          rcases Bool.and_eq_true_iff.mp h' with ⟨_, h2⟩
          exact h2
        have hcond : (!prevContent prev || !peekContent rest) = false := by
          simp [hpc, hpk]
        simp [normLoop, hc, hsh, hpsh, hcond, ih (some c) hg]
      · have h' := h
        simp only [goodLoop, hc, hsh, if_false] at h'
        simp [normLoop, hc, hsh, ih (some c) h']

theorem goodLoop_append_glue :
    ∀ (l1 : List Cell) (prev : Option Cell) (l2 : List Cell),
      goodLoop prev (l1 ++ l2) = true → (∀ c ∈ l2, isGlue c = true) →
      goodLoop prev l1 = true := by
  intro l1
  induction l1 with
  | nil => intro prev l2 _ _; rfl
  | cons c t ih =>
    intro prev l2 h hg
    by_cases hc : isContent c = true
    · simp only [List.cons_append, goodLoop, hc, if_true] at h ⊢
      obtain ⟨h1, h2⟩ := Bool.and_eq_true_iff.mp h
      simp [h1, ih (some c) l2 h2 hg]
    · by_cases hsh : isSoftHyphen c = true
      · simp only [List.cons_append, goodLoop, hc, hsh, if_false, if_true] at h ⊢
        obtain ⟨h1, h2⟩ := Bool.and_eq_true_iff.mp h
        obtain ⟨h3, h4⟩ := Bool.and_eq_true_iff.mp h1
        obtain ⟨h5, h6⟩ := Bool.and_eq_true_iff.mp h3
        -- the peeked cell cannot lie in the all-glue suffix
        match t with
        | [] =>
          exfalso
          match l2, h4 with
          | g :: l2', h4 =>
            have : isContent g = true := by simpa [peekContent] using h4
            have := hg g (List.mem_cons_self g l2')
            simp_all [isGlue_eq_not_isContent]
        | x :: t' =>
          have hpk : peekContent (x :: t') = true := by
            simpa [peekContent] using h4
          simp [h5, h6, hpk, ih (some c) l2 h2 hg]
      · simp only [List.cons_append, goodLoop, hc, hsh, if_false] at h ⊢
        exact ih (some c) l2 h hg

theorem mem_takeWhile_glue :
    ∀ (l : List Cell), ∀ c ∈ l.takeWhile isGlue, isGlue c = true := by
  intro l
  induction l with
  | nil => intro c hc; simp [List.takeWhile] at hc
  | cons a t ih =>
    intro c hc
    by_cases ha : isGlue a = true
    · rw [List.takeWhile_cons_of_pos ha] at hc
      rcases List.mem_cons.mp hc with h | h
      · rw [h]; exact ha
      · exact ih c h
    · rw [List.takeWhile_cons_of_neg ha] at hc
      simp at hc

theorem dropTrailingGlue_decomp (l : List Cell) :
    ∃ g, l = dropTrailingGlue l ++ g ∧ ∀ c ∈ g, isGlue c = true := by
  refine ⟨(l.reverse.takeWhile isGlue).reverse, ?_, ?_⟩
  · conv_lhs => rw [← l.reverse_reverse,
      ← List.takeWhile_append_dropWhile (p := isGlue) (l := l.reverse)]
    rw [List.reverse_append]
    rfl
  · intro c hc
    exact mem_takeWhile_glue l.reverse c (List.mem_reverse.mp hc)

theorem dropWhile_glue_idem (l : List Cell) :
    (l.dropWhile isGlue).dropWhile isGlue = l.dropWhile isGlue := by
  induction l with
  | nil => rfl
  | cons a t ih =>
    by_cases ha : isGlue a = true
    · rw [List.dropWhile_cons_of_pos ha, ih]
    · rw [List.dropWhile_cons_of_neg ha, List.dropWhile_cons_of_neg ha]

theorem dropTrailingGlue_idem (l : List Cell) :
    dropTrailingGlue (dropTrailingGlue l) = dropTrailingGlue l := by
  unfold dropTrailingGlue
  rw [List.reverse_reverse, dropWhile_glue_idem]

theorem goodLoop_content_peek {c : Cell} {rest : List Cell}
    (hc : isContent c = true) (h : goodLoop (some c) rest = true) :
    peekContent rest = false := by
  match rest with
  | [] => rfl
  | r :: rest' =>
    by_cases hr : isContent r = true
    · exfalso
      simp [goodLoop, hr, prevContent, hc] at h
    · simp [peekContent, hr]

theorem goodLoop_no_adjacent :
    ∀ (l : List Cell) (prev : Option Cell),
      goodLoop prev l = true → hasAdjacentContent l = false := by
  intro l
  induction l with
  | nil => intro prev _; rfl
  | cons c rest ih =>
    intro prev h
    rw [hasAdjacentContent_cons]
    by_cases hc : isContent c = true
    · simp only [goodLoop, hc, if_true] at h
      obtain ⟨_, hg⟩ := Bool.and_eq_true_iff.mp h
      simp [goodLoop_content_peek hc hg, ih (some c) hg]
    · by_cases hsh : isSoftHyphen c = true
      · simp only [goodLoop, hc, hsh, if_false, if_true] at h
        obtain ⟨_, hg⟩ := Bool.and_eq_true_iff.mp h
        simp [hc, ih (some c) hg]
      · simp only [goodLoop, hc, hsh, if_false] at h
        simp [hc, ih (some c) h]

theorem fitLines_append (spacing budget : ℚ) :
    ∀ (ls : List RawLine) (acc : ℚ),
      (fitLines spacing budget acc ls).1 ++ (fitLines spacing budget acc ls).2 = ls := by
  intro ls
  induction ls with
  | nil => intro acc; rfl
  | cons l t ih =>
    intro acc
    by_cases h : acc + lineAdvance spacing l ≤ budget
    · simp [fitLines, h, ih]
    · simp [fitLines, h]

theorem fitLines_sum (spacing budget : ℚ) :
    ∀ (ls : List RawLine) (acc : ℚ), acc ≤ budget →
      acc + ((fitLines spacing budget acc ls).1.map (lineAdvance spacing)).sum ≤
        budget := by
  intro ls
  induction ls with
  | nil => intro acc hacc; simpa [fitLines] using hacc
  | cons l t ih =>
    intro acc hacc
    by_cases h : acc + lineAdvance spacing l ≤ budget
    · have := ih (acc + lineAdvance spacing l) h
      simp only [fitLines, h, if_true, List.map_cons, List.sum_cons]
      linarith
    · simpa [fitLines, h] using hacc

theorem fitLines_stop (spacing budget : ℚ) :
    ∀ (ls : List RawLine) (acc : ℚ) (l : RawLine) (t : List RawLine),
      (fitLines spacing budget acc ls).2 = l :: t →
      budget <
        acc + ((fitLines spacing budget acc ls).1.map (lineAdvance spacing)).sum +
          lineAdvance spacing l := by
  intro ls
  induction ls with
  | nil => intro acc l t h; simp [fitLines] at h
  | cons a u ih =>
    intro acc l t h
    by_cases ha : acc + lineAdvance spacing a ≤ budget
    · simp only [fitLines, ha, if_true] at h ⊢
      have := ih (acc + lineAdvance spacing a) l t h
      simp only [List.map_cons, List.sum_cons]
      linarith
    · simp only [fitLines, ha, if_false] at h ⊢
      cases h
      simp only [List.map_nil, List.sum_nil]
      linarith [lt_of_not_le ha]

/-- C2 (spec-modelled, the source body of
`FlowText.distribute_content` is a `pass` stub): distributing a
paragraph's raw content against a finite height budget keeps exactly
the produced lines that fit the remaining content budget, stops as
soon as the next line would exceed it, and hands the raw cells of the
undistributed lines back to the caller instead of dropping them or
failing. -/
theorem flowtext_distribute_budget (p : FlowTextS) (b : ℚ)
    (hb : 0 ≤ b - p.core.top_margin - p.core.bottom_margin) :
    ∃ rest,
      wrapLines p = (p.distribute_content (some b)).1 ++ rest ∧
      (p.distribute_content (some b)).2 = (rest.map RawLine.cells).flatten ∧
      ((p.distribute_content (some b)).1.map (lineAdvance p.lineSpacing)).sum ≤
        b - p.core.top_margin - p.core.bottom_margin ∧
      (∀ l t, rest = l :: t →
        b - p.core.top_margin - p.core.bottom_margin <
          ((p.distribute_content (some b)).1.map (lineAdvance p.lineSpacing)).sum +
            lineAdvance p.lineSpacing l) := by
  refine ⟨(fitLines p.lineSpacing (b - p.core.top_margin - p.core.bottom_margin) 0
    (wrapLines p)).2, ?_, ?_, ?_, ?_⟩
  · simp only [FlowTextS.distribute_content]
    exact (fitLines_append p.lineSpacing
      (b - p.core.top_margin - p.core.bottom_margin) (wrapLines p) 0).symm
  · simp only [FlowTextS.distribute_content]
  · simp only [FlowTextS.distribute_content]
    have := fitLines_sum p.lineSpacing
      (b - p.core.top_margin - p.core.bottom_margin) (wrapLines p) 0 hb
    linarith
  · intro l t hrest
    simp only [FlowTextS.distribute_content]
    have := fitLines_stop p.lineSpacing
      (b - p.core.top_margin - p.core.bottom_margin) (wrapLines p) 0 l t hrest
    linarith

/-- Witness for C2: the concrete two-word paragraph distributed with
total height budget 10. -/
theorem flowtext_distribute_budget_witness :
    ∃ rest,
      wrapLines flowTextEx = (flowTextEx.distribute_content (some 10)).1 ++ rest ∧
      (flowTextEx.distribute_content (some 10)).2 = (rest.map RawLine.cells).flatten ∧
      ((flowTextEx.distribute_content (some 10)).1.map
          (lineAdvance flowTextEx.lineSpacing)).sum ≤
        10 - flowTextEx.core.top_margin - flowTextEx.core.bottom_margin ∧
      (∀ l t, rest = l :: t →
        10 - flowTextEx.core.top_margin - flowTextEx.core.bottom_margin <
          ((flowTextEx.distribute_content (some 10)).1.map
              (lineAdvance flowTextEx.lineSpacing)).sum +
            lineAdvance flowTextEx.lineSpacing l) :=
  flowtext_distribute_budget flowTextEx 10
    (by norm_num [flowTextEx, unplacedCoreEx, Core.top_margin, Core.bottom_margin])

/-- C4: `normalize_cells` fails with the
`ValueError('no glue between content cells')` exactly claimed whenever
the input holds two adjacent content cells, and any successfully
normalized output never holds two adjacent content cells. -/
theorem normalize_cells_adjacency :
    ∀ cs : List Cell,
      (hasAdjacentContent cs = true →
        normalize_cells cs = .error "no glue between content cells") ∧
      (∀ out, normalize_cells cs = .ok out → hasAdjacentContent out = false) := by
  intro cs
  constructor
  · intro h
    unfold normalize_cells
    rw [normLoop_error_of_adjacent cs none (Or.inl h)]
  · intro out h
    unfold normalize_cells at h
    cases hrec : normLoop none cs with
    | error e => rw [hrec] at h; cases h
    | ok mid =>
      rw [hrec] at h
      cases h
      have hgood := normLoop_ok_good cs none mid hrec
      obtain ⟨g, hdec, hglue⟩ := dropTrailingGlue_decomp mid
      have hgood' : goodLoop none (dropTrailingGlue mid) = true := by
        apply goodLoop_append_glue _ none g _ hglue
        rw [← hdec]
        exact hgood
      exact goodLoop_no_adjacent _ none hgood'

/-- Witness for C4: two directly adjacent words raise the error; a
word–space–word sequence normalizes with no adjacent content cells in
the output. -/
theorem normalize_cells_adjacency_witness :
    normalize_cells [Cell.text 4 2 0, Cell.text 4 2 1] =
      .error "no glue between content cells" ∧
    hasAdjacentContent [Cell.text 4 2 0, Cell.space 1 1, Cell.text 4 2 1] = false := by
  constructor
  · exact (normalize_cells_adjacency [Cell.text 4 2 0, Cell.text 4 2 1]).1 rfl
  · exact (normalize_cells_adjacency
      [Cell.text 4 2 0, Cell.space 1 1, Cell.text 4 2 1]).2
      [Cell.text 4 2 0, Cell.space 1 1, Cell.text 4 2 1] rfl

/-- C5: `normalize_cells` is idempotent — a successfully normalized
sequence normalizes to itself again. -/
theorem normalize_cells_idempotent :
    ∀ cs out, normalize_cells cs = .ok out → normalize_cells out = .ok out := by
  intro cs out h
  unfold normalize_cells at h ⊢
  cases hrec : normLoop none cs with
  | error e => rw [hrec] at h; cases h
  | ok mid =>
    rw [hrec] at h
    cases h
    have hgood := normLoop_ok_good cs none mid hrec
    obtain ⟨g, hdec, hglue⟩ := dropTrailingGlue_decomp mid
    have hgood' : goodLoop none (dropTrailingGlue mid) = true := by
      apply goodLoop_append_glue _ none g _ hglue
      rw [← hdec]
      exact hgood
    rw [goodLoop_normLoop_id _ none hgood']
    exact congrArg Except.ok (dropTrailingGlue_idem mid)

/-- Witness for C5 on a concrete word–space–word sequence. -/
theorem normalize_cells_idempotent_witness :
    normalize_cells [Cell.text 4 2 0, Cell.space 2 1, Cell.text 4 2 1] =
      .ok [Cell.text 4 2 0, Cell.space 2 1, Cell.text 4 2 1] :=
  normalize_cells_idempotent
    [Cell.text 4 2 0, Cell.space 2 1, Cell.text 4 2 1] _ rfl

end TextLayout
